import Mathlib

/-!
Verification of the concurrent-fetch notebook (`parallel-async.ipynb`).

The notebook contains three variants of the same pattern — fetch a fixed
list of URLs, print one line per URL (`<url> page is <N> bytes` on success,
`<url> generated an exception: <desc>` on failure):

* serial: `requests.get(url, timeout=60)` inside `load_url`, which catches
  every exception; `main` loops over `URLS`;
* parallel: `urllib.request.urlopen(url, timeout)` inside `load_url`,
  submitted to a `ThreadPoolExecutor(max_workers=5)`; the
  `as_completed` loop wraps `future.result()` in try/except;
* async: `aiohttp` `session.get(url, timeout=60)` inside an async
  `load_url` that catches every exception; `asyncio.gather` over one task
  per URL.

The network is modelled as an environment mapping each URL to the event its
fetch produces: a completed HTTP response (status plus body bytes), a
name-resolution error, a connection error, or a timeout expiry.  Exceptions
are modelled with `Except`; the thread pool and its `as_completed` loop are
modelled as a nondeterministic step relation on a state holding the pending
futures and the lines emitted so far.
-/

namespace ParallelAsync

/-- What the network does when a GET against a given URL is attempted:
a completed HTTP response with a status code and a body (a list of bytes),
a name-resolution failure, a connection failure, or a timeout expiry. -/
inductive NetEvent where
  | response (status : Nat) (body : List Nat)
  | nameResolutionError
  | connectionError
  | timeoutExpired
  deriving DecidableEq

/-- The network environment: the event each URL's fetch produces. -/
abbrev Env := String → NetEvent

/-- The exception raised by a failed fetch, kept structured so failures can
be classified; the human-readable description is derived by `errDesc`. -/
inductive FetchError where
  | nameResolution
  | connection
  | httpStatus (code : Nat)
  | timeoutExpired
  deriving DecidableEq

/-- The per-target result: a success with a byte count (`len(data)`), or a
failure carrying the caught exception. -/
inductive Outcome where
  | success (url : String) (bytes : Nat)
  | failure (url : String) (exc : FetchError)
  deriving DecidableEq

/-- The target an outcome is scoped to. -/
def Outcome.url : Outcome → String
  | .success u _ => u
  | .failure u _ => u

/-- Success/failure classification of an outcome. -/
def Outcome.isSuccess : Outcome → Bool
  | .success _ _ => true
  | .failure _ _ => false

/-- The spec's failure taxonomy. -/
inductive FailureKind where
  | NetworkFailure
  | ProtocolFailure
  | TimeoutFailure
  deriving DecidableEq

/-- Classification of a caught exception into the spec's taxonomy:
connection refused / name resolution are NetworkFailure, a non-success
HTTP status is ProtocolFailure, a timeout is TimeoutFailure. -/
def failureKind : FetchError → FailureKind
  | .nameResolution => .NetworkFailure
  | .connection => .NetworkFailure
  | .httpStatus _ => .ProtocolFailure
  | .timeoutExpired => .TimeoutFailure

/-- A human-readable description of a caught exception (the exact wording
of the library messages is illustrative, per the spec). -/
def errDesc : FetchError → String
  | .nameResolution => "getaddrinfo failed"
  | .connection => "connection refused"
  | .httpStatus code => "HTTP Error " ++ toString code
  | .timeoutExpired => "timed out"

/-- Whether an HTTP status code is a success (2xx) status. -/
def is2xx (status : Nat) : Bool := 200 ≤ status && status < 300

/-! ## Serial variant -/

/-- `requests.get(url, timeout=60)`: raises on network errors and timeout
expiry, but returns the response for any completed HTTP exchange — it does
not raise on a non-success HTTP status.  `response.content` is the body. -/
def requests_get (env : Env) (url : String) : Except FetchError (Nat × List Nat) :=
  match env url with
  | .response status body => .ok (status, body)
  | .nameResolutionError => .error .nameResolution
  | .connectionError => .error .connection
  | .timeoutExpired => .error .timeoutExpired

/-- The serial `load_url(url)`: try `requests.get`; on success report
`len(response.content)` bytes, on any exception report the exception. -/
def load_url_serial (env : Env) (url : String) : Outcome :=
  match requests_get env url with
  | .ok (_, body) => .success url body.length
  | .error exc => .failure url exc

/-- The serial `main()`: run `load_url` on every URL in order. -/
def main_serial (env : Env) (urls : List String) : List Outcome :=
  urls.map (load_url_serial env)

/-! ## Parallel (thread-pool) variant -/

/-- `urllib.request.urlopen(url, timeout=timeout)`: raises on network
errors and timeout expiry, and also raises `HTTPError` when the exchange
completes with a non-success status; `conn.read()` is the body. -/
def urlopen (env : Env) (url : String) : Except FetchError (List Nat) :=
  match env url with
  | .response status body =>
      if is2xx status then .ok body else .error (.httpStatus status)
  | .nameResolutionError => .error .nameResolution
  | .connectionError => .error .connection
  | .timeoutExpired => .error .timeoutExpired

/-- The parallel `load_url(url, timeout)`: open the URL and read the body;
exceptions propagate into the future. -/
def load_url_parallel (env : Env) (url : String) : Except FetchError (List Nat) :=
  urlopen env url

/-- One iteration of the `as_completed` loop body: `future.result()` inside
try/except, turning the completed future for `url` into its outcome. -/
def handle_future (env : Env) (url : String) : Outcome :=
  match load_url_parallel env url with
  | .ok data => .success url data.length
  | .error exc => .failure url exc

/-- State of the thread-pool run: the URLs whose futures have not yet been
handed out by `as_completed`, and the outcomes already emitted. -/
structure PoolState where
  pending : List String
  emitted : List Outcome
  deriving DecidableEq

/-- One step of the `as_completed` loop: some pending future completes
(nondeterministically — completion order is whatever the I/O layer
produces) and its outcome is appended to the output in that same step. -/
inductive PoolStep (env : Env) : PoolState → PoolState → Prop where
  | complete (pre post : List String) (u : String) (out : List Outcome) :
      PoolStep env ⟨pre ++ u :: post, out⟩ ⟨pre ++ post, out ++ [handle_future env u]⟩

/-- Zero or more steps of the `as_completed` loop. -/
inductive PoolRun (env : Env) : PoolState → PoolState → Prop where
  | refl (s : PoolState) : PoolRun env s s
  | head {s t u : PoolState} : PoolStep env s t → PoolRun env t u → PoolRun env s u

/-! ## Async (event-loop) variant -/

/-- aiohttp `session.get(url, timeout=60)` followed by
`await response.read()`: raises on network errors and timeout expiry but
not on the HTTP status; returns the body. -/
def aiohttp_read (env : Env) (url : String) : Except FetchError (List Nat) :=
  match env url with
  | .response _ body => .ok body
  | .nameResolutionError => .error .nameResolution
  | .connectionError => .error .connection
  | .timeoutExpired => .error .timeoutExpired

/-- The async `load_url(session, url)`: fetch and read inside try/except,
reporting `len(data)` bytes on success and the exception otherwise. -/
def load_url_async (env : Env) (url : String) : Outcome :=
  match aiohttp_read env url with
  | .ok data => .success url data.length
  | .error exc => .failure url exc

/-- The async `main()`: `asyncio.gather` over one `load_url` task per URL;
every exception is caught inside its task, so gather collects one outcome
per URL. -/
def main_async (env : Env) (urls : List String) : List Outcome :=
  urls.map (load_url_async env)

/-! ## Printed output -/

/-- The line printed for an outcome: `<url> page is <N> bytes` for a
success, `<url> generated an exception: <desc>` for a failure. -/
def outcomeLine : Outcome → String
  | .success u n => u ++ " page is " ++ toString n ++ " bytes"
  | .failure u e => u ++ " generated an exception: " ++ errDesc e

/-- The lines the serial `main()` prints, in order. -/
def main_serial_output (env : Env) (urls : List String) : List String :=
  (main_serial env urls).map outcomeLine

/-- The module-level URL list shared by all three variants. -/
def URLS : List String :=
  [ "http://www.foxnews.com/"
  , "http://www.cnn.com/"
  , "http://europe.wsj.com/"
  , "http://www.bbc.co.uk/"
  , "http://nonexistent-subdomain.python.org/" ]

/-! ## Basic lemmas -/

/-- Every outcome `handle_future` emits is scoped to the URL it was given. -/
lemma handle_future_url (env : Env) (u : String) :
    (handle_future env u).url = u := by
  unfold handle_future
  cases load_url_parallel env u <;> rfl

/-- Every outcome the serial `load_url` emits is scoped to its URL. -/
lemma load_url_serial_url (env : Env) (u : String) :
    (load_url_serial env u).url = u := by
  unfold load_url_serial
  cases requests_get env u with
  | ok v => cases v; rfl
  | error e => rfl

/-- A pool step consumes exactly one pending future and appends exactly its
outcome. -/
lemma poolStep_shape {env : Env} {s t : PoolState} (h : PoolStep env s t) :
    ∃ u, u ∈ s.pending ∧ t.emitted = s.emitted ++ [handle_future env u] ∧
      List.Perm s.pending (u :: t.pending) := by
  cases h with
  | complete pre post u out =>
      refine ⟨u, ?_, rfl, ?_⟩
      · simp
      · exact List.perm_middle

/-- A pool step preserves the multiset of emitted-outcome URLs plus
pending URLs. -/
lemma poolStep_perm {env : Env} {s t : PoolState} (h : PoolStep env s t) :
    List.Perm (t.emitted.map Outcome.url ++ t.pending)
      (s.emitted.map Outcome.url ++ s.pending) := by
  cases h with
  | complete pre post u out =>
      simp only [List.map_append, List.map_cons, List.map_nil,
        handle_future_url, List.append_assoc, List.cons_append,
        List.nil_append]
      exact List.Perm.append_left _ List.perm_middle.symm

/-- A pool run preserves the multiset of emitted-outcome URLs plus
pending URLs. -/
lemma poolRun_perm {env : Env} {s t : PoolState} (h : PoolRun env s t) :
    List.Perm (t.emitted.map Outcome.url ++ t.pending)
      (s.emitted.map Outcome.url ++ s.pending) := by
  induction h with
  | refl s => exact List.Perm.refl _
  | head hstep hrun ih => exact ih.trans (poolStep_perm hstep)

/-- Along a pool run, every emitted outcome stays the handled future of
its own URL. -/
lemma poolRun_emitted {env : Env} {s t : PoolState} (h : PoolRun env s t)
    (hmem : ∀ o ∈ s.emitted, o = handle_future env o.url) :
    ∀ o ∈ t.emitted, o = handle_future env o.url := by
  induction h with
  | refl s => exact hmem
  | head hstep hrun ih =>
      apply ih
      obtain ⟨u, -, hemit, -⟩ := poolStep_shape hstep
      intro o ho
      rw [hemit] at ho
      rcases List.mem_append.mp ho with h1 | h1
      · exact hmem o h1
      · rw [List.mem_singleton.mp h1, handle_future_url]

/-- A pool run never loses or duplicates a unit: emitted plus pending
counts are conserved. -/
lemma poolRun_length {env : Env} {s t : PoolState} (h : PoolRun env s t) :
    t.emitted.length + t.pending.length =
      s.emitted.length + s.pending.length := by
  have := (poolRun_perm h).length_eq
  simpa using this

/-- A state with no pending futures admits no further step. -/
lemma no_step_of_done {env : Env} {s t : PoolState} (h : PoolStep env s t)
    (hdone : s.pending = []) : False := by
  cases h with
  | complete pre post u out => simp at hdone

/-- From any pool state, the `as_completed` loop can run to completion:
a state with no pending futures is reachable. -/
lemma pool_terminates (env : Env) (p : List String) :
    ∀ out : List Outcome,
      ∃ f : PoolState, PoolRun env ⟨p, out⟩ f ∧ f.pending = [] := by
  induction p with
  | nil => exact fun out => ⟨⟨[], out⟩, PoolRun.refl _, rfl⟩
  | cons u rest ih =>
      intro out
      obtain ⟨f, hrun, hf⟩ := ih (out ++ [handle_future env u])
      exact ⟨f, PoolRun.head (PoolStep.complete [] rest u out) hrun, hf⟩

/-- The serial run is scoped: one outcome per URL, in input order. -/
lemma main_serial_urls (env : Env) (urls : List String) :
    (main_serial env urls).map Outcome.url = urls := by
  induction urls with
  | nil => rfl
  | cons u rest ih =>
      simp only [main_serial, List.map_cons] at ih ⊢
      rw [load_url_serial_url, ih]

/-! ## Success/failure classification -/

/-- Classification the serial variant assigns to a network event:
`requests.get` succeeds exactly when an HTTP exchange completed, whatever
its status. -/
def serialClass : NetEvent → Bool
  | .response _ _ => true
  | _ => false

/-- Classification the thread-pool variant assigns to a network event:
`urlopen` succeeds only on a completed exchange with a 2xx status. -/
def parallelClass : NetEvent → Bool
  | .response st _ => is2xx st
  | _ => false

/-- The serial `load_url` classifies its URL by `serialClass`. -/
lemma load_url_serial_isSuccess (env : Env) (u : String) :
    (load_url_serial env u).isSuccess = serialClass (env u) := by
  unfold load_url_serial requests_get serialClass
  cases env u <;> rfl

/-- The async `load_url` classifies its URL by `serialClass` as well:
aiohttp does not raise on the HTTP status either. -/
lemma load_url_async_isSuccess (env : Env) (u : String) :
    (load_url_async env u).isSuccess = serialClass (env u) := by
  unfold load_url_async aiohttp_read serialClass
  cases env u <;> rfl

/-- The `as_completed` handler classifies its URL by `parallelClass`. -/
lemma handle_future_isSuccess (env : Env) (u : String) :
    (handle_future env u).isSuccess = parallelClass (env u) := by
  unfold handle_future load_url_parallel urlopen parallelClass
  cases env u with
  | response st body => cases hst : is2xx st <;> simp [hst, Outcome.isSuccess]
  | nameResolutionError => rfl
  | connectionError => rfl
  | timeoutExpired => rfl

/-- Two network events behave the same way up to body content: same event
kind, and for completed responses the same status (bodies may differ). -/
def sameShape : NetEvent → NetEvent → Bool
  | .response st _, .response st2 _ => st == st2
  | .nameResolutionError, .nameResolutionError => true
  | .connectionError, .connectionError => true
  | .timeoutExpired, .timeoutExpired => true
  | _, _ => false

/-- Serial classification depends only on the event's shape. -/
lemma sameShape_serialClass {e1 e2 : NetEvent}
    (h : sameShape e1 e2 = true) : serialClass e1 = serialClass e2 := by
  cases e1 <;> cases e2 <;> simp [sameShape] at h <;> rfl

/-- Thread-pool classification depends only on the event's shape. -/
lemma sameShape_parallelClass {e1 e2 : NetEvent}
    (h : sameShape e1 e2 = true) : parallelClass e1 = parallelClass e2 := by
  cases e1 <;> cases e2 <;> simp [sameShape] at h
  all_goals first
    | rfl
    | (subst h; rfl)

/-- Mapping classification over two per-URL runs agrees once the per-URL
classifications agree. -/
lemma map_isSuccess_congr (f g : String → Outcome) (urls : List String)
    (h : ∀ u ∈ urls, (f u).isSuccess = (g u).isSuccess) :
    (urls.map f).map Outcome.isSuccess
      = (urls.map g).map Outcome.isSuccess := by
  induction urls with
  | nil => rfl
  | cons u rest ih =>
      simp only [List.map_cons]
      rw [h u (List.mem_cons_self u rest),
        ih (fun v hv => h v (List.mem_cons_of_mem u hv))]

/-! ## Concrete environments used by witnesses -/

/-- Every URL completes with status 200 and a three-byte body. -/
def envPage : Env := fun _ => NetEvent.response 200 [7, 7, 7]

/-- Every URL completes with status 403 and a two-byte error page. -/
def envHttp403 : Env := fun _ => NetEvent.response 403 [1, 2]

/-- No URL's hostname resolves. -/
def envNoHost : Env := fun _ => NetEvent.nameResolutionError

/-- Every URL's connection fails. -/
def envDown : Env := fun _ => NetEvent.connectionError

/-- One URL's connection fails, every other URL succeeds. -/
def envMixed : Env := fun v =>
  if v = "http://t/" then NetEvent.connectionError
  else NetEvent.response 200 [7]

/-! ## Claims -/

/-- C1: for every non-empty sequence of Targets submitted to a batch run,
exactly one Outcome is produced per Target — the number of Outcomes (and
printed result lines) equals the number of Targets, and no Target yields
zero or more than one Outcome.  Stated for the serial `main` (one outcome
per URL, in order, scoped to that URL) and for every complete run of the
thread-pool `as_completed` loop (the emitted outcomes' URLs are a
permutation of the submitted URLs, so per-target counts coincide). -/
theorem c1_one_outcome_per_target (env : Env) (urls : List String)
    (_hne : urls ≠ []) {s : PoolState}
    (hrun : PoolRun env ⟨urls, []⟩ s) (hdone : s.pending = []) :
    (main_serial env urls).length = urls.length ∧
    (main_serial_output env urls).length = urls.length ∧
    (main_serial env urls).map Outcome.url = urls ∧
    List.Perm (s.emitted.map Outcome.url) urls ∧
    ∀ t, (s.emitted.map Outcome.url).count t = urls.count t := by
  have hperm : List.Perm (s.emitted.map Outcome.url) urls := by
    have h := poolRun_perm hrun
    rw [hdone] at h
    simpa using h
  exact ⟨by simp [main_serial], by simp [main_serial_output, main_serial],
    main_serial_urls env urls, hperm, fun t => hperm.count_eq t⟩

/-- C1 witness: a one-URL batch, with the pool run that completes it. -/
theorem c1_witness :
    (main_serial envPage ["http://a/"]).length
      = (["http://a/"] : List String).length ∧
    (main_serial_output envPage ["http://a/"]).length
      = (["http://a/"] : List String).length ∧
    (main_serial envPage ["http://a/"]).map Outcome.url = ["http://a/"] ∧
    List.Perm ([handle_future envPage "http://a/"].map Outcome.url)
      ["http://a/"] ∧
    ∀ t, ([handle_future envPage "http://a/"].map Outcome.url).count t
      = (["http://a/"] : List String).count t :=
  c1_one_outcome_per_target envPage ["http://a/"] (by decide)
    (PoolRun.head (PoolStep.complete [] [] "http://a/" []) (PoolRun.refl _))
    rfl

/-- C2: every per-target error is caught at the unit-of-work boundary and
becomes a failure Outcome for that Target only; it does not propagate out
of the batch or abort sibling units, and the batch completes even if every
Outcome is a failure.  Stated as: the serial batch yields one outcome per
URL for every environment (all-failing included); a target's outcome, in
each variant, depends only on the network's behaviour at that target (so a
sibling's error cannot change it); every raised exception is converted into
a failure outcome scoped to its own URL; and the pool loop is never stuck
while futures are pending. -/
theorem c2_errors_scoped (env env2 : Env) (urls : List String) (t : String)
    (hagree : env t = env2 t) :
    (main_serial env urls).length = urls.length ∧
    load_url_serial env t = load_url_serial env2 t ∧
    handle_future env t = handle_future env2 t ∧
    load_url_async env t = load_url_async env2 t ∧
    (∀ u e, requests_get env u = .error e →
      load_url_serial env u = Outcome.failure u e) ∧
    (∀ s : PoolState, s.pending ≠ [] → ∃ s2, PoolStep env s s2) := by
  refine ⟨by simp [main_serial], ?_, ?_, ?_, ?_, ?_⟩
  · unfold load_url_serial requests_get
    rw [hagree]
  · unfold handle_future load_url_parallel urlopen
    rw [hagree]
  · unfold load_url_async aiohttp_read
    rw [hagree]
  · intro u e h
    unfold load_url_serial
    rw [h]
  · intro s hs
    obtain ⟨pending, emitted⟩ := s
    cases pending with
    | nil => exact absurd rfl hs
    | cons u rest => exact ⟨_, PoolStep.complete [] rest u emitted⟩

/-- C2 witness: an all-failing environment against a mixed one agreeing at
the failing target. -/
theorem c2_witness :
    (main_serial envDown ["http://t/", "http://b/"]).length
      = (["http://t/", "http://b/"] : List String).length ∧
    load_url_serial envDown "http://t/" = load_url_serial envMixed "http://t/" ∧
    handle_future envDown "http://t/" = handle_future envMixed "http://t/" ∧
    load_url_async envDown "http://t/" = load_url_async envMixed "http://t/" ∧
    (∀ u e, requests_get envDown u = .error e →
      load_url_serial envDown u = Outcome.failure u e) ∧
    (∀ s : PoolState, s.pending ≠ [] → ∃ s2, PoolStep envDown s s2) :=
  c2_errors_scoped envDown envMixed ["http://t/", "http://b/"] "http://t/"
    (by decide)

/-- C3 counterexample: the three variants are not classification-equivalent.
When a fetch completes with HTTP status 403, the serial variant (whose
`requests.get` does not raise on status) reports a success outcome while
the thread-pool variant (whose `urlopen` raises `HTTPError`) reports a
failure outcome for the very same target — exactly the divergence the
notebook's saved outputs show on `http://europe.wsj.com/`. -/
theorem c3_counterexample :
    (load_url_serial envHttp403 "http://europe.wsj.com/").isSuccess = true ∧
    (handle_future envHttp403 "http://europe.wsj.com/").isSuccess = false ∧
    (load_url_async envHttp403 "http://europe.wsj.com/").isSuccess = true := by
  decide

/-- C3 (amended): the serial and async variants produce the same
success/failure classification for every Target and every environment; the
thread-pool variant agrees with them for every Target whose fetch does not
complete with a non-2xx HTTP status. -/
theorem c3_amended_equivalence (env : Env) (u : String)
    (hok : ∀ st body, env u = NetEvent.response st body → is2xx st = true) :
    (∀ (e : Env) (urls : List String),
      (main_serial e urls).map Outcome.isSuccess
        = (main_async e urls).map Outcome.isSuccess) ∧
    (load_url_serial env u).isSuccess = (handle_future env u).isSuccess := by
  constructor
  · intro e urls
    unfold main_serial main_async
    apply map_isSuccess_congr
    intro v hv
    rw [load_url_serial_isSuccess, load_url_async_isSuccess]
  · rw [load_url_serial_isSuccess, handle_future_isSuccess]
    cases h : env u with
    | response st body => simp [serialClass, parallelClass, hok st body h]
    | nameResolutionError => rfl
    | connectionError => rfl
    | timeoutExpired => rfl

/-- C3 witness: a 200-status environment, where all three variants agree. -/
theorem c3_witness :
    (∀ (e : Env) (urls : List String),
      (main_serial e urls).map Outcome.isSuccess
        = (main_async e urls).map Outcome.isSuccess) ∧
    (load_url_serial envPage "http://a/").isSuccess
      = (handle_future envPage "http://a/").isSuccess :=
  c3_amended_equivalence envPage "http://a/"
    (by
      intro st body h
      simp only [envPage] at h
      injection h with h1 h2
      rw [← h1]
      decide)

/-- C4: a Target whose fetch succeeds within the timeout yields a success
Outcome whose reported byte count is the length of the response body, in
all three variants (for the thread-pool variant success means a 2xx
status, since `urlopen` raises otherwise). -/
theorem c4_success_byte_count (env : Env) (u : String) (st : Nat)
    (body : List Nat) (hresp : env u = NetEvent.response st body)
    (h2 : is2xx st = true) :
    load_url_serial env u = Outcome.success u body.length ∧
    handle_future env u = Outcome.success u body.length ∧
    load_url_async env u = Outcome.success u body.length := by
  refine ⟨?_, ?_, ?_⟩ <;>
    simp [load_url_serial, handle_future, load_url_parallel, load_url_async,
      requests_get, urlopen, aiohttp_read, hresp, h2]

/-- C4 witness: a 200-status fetch with a three-byte body. -/
theorem c4_witness :
    load_url_serial envPage "http://a/" = Outcome.success "http://a/" 3 ∧
    handle_future envPage "http://a/" = Outcome.success "http://a/" 3 ∧
    load_url_async envPage "http://a/" = Outcome.success "http://a/" 3 :=
  c4_success_byte_count envPage "http://a/" 200 [7, 7, 7] rfl (by decide)

/-- C5: the serial batch prints exactly one visible line per Target, and
each line has exactly one of the two shapes — `<url> page is <N> bytes`
for a success, `<url> generated an exception: <desc>` for a failure; a
failure is reported inline, never silently omitted. -/
theorem c5_one_line_two_shapes (env : Env) (urls : List String) (i : Nat)
    (hi : i < urls.length) :
    (main_serial_output env urls).length = urls.length ∧
    ∃ hj : i < (main_serial_output env urls).length,
      (∃ n : Nat, (main_serial_output env urls).get ⟨i, hj⟩
          = urls.get ⟨i, hi⟩ ++ " page is " ++ toString n ++ " bytes") ∨
      (∃ e, (main_serial_output env urls).get ⟨i, hj⟩
          = urls.get ⟨i, hi⟩ ++ " generated an exception: " ++ errDesc e) := by
  have hlen : (main_serial_output env urls).length = urls.length := by
    simp [main_serial_output, main_serial]
  have hj : i < (main_serial_output env urls).length := by
    rw [hlen]; exact hi
  refine ⟨hlen, hj, ?_⟩
  have hget : (main_serial_output env urls).get ⟨i, hj⟩
      = outcomeLine (load_url_serial env (urls.get ⟨i, hi⟩)) := by
    simp [main_serial_output, main_serial]
  rw [hget]
  cases h : env (urls.get ⟨i, hi⟩) with
  | response st body =>
      refine Or.inl ⟨body.length, ?_⟩
      simp only [List.get_eq_getElem] at h
      simp [load_url_serial, requests_get, h, outcomeLine]
  | nameResolutionError =>
      refine Or.inr ⟨.nameResolution, ?_⟩
      simp only [List.get_eq_getElem] at h
      simp [load_url_serial, requests_get, h, outcomeLine]
  | connectionError =>
      refine Or.inr ⟨.connection, ?_⟩
      simp only [List.get_eq_getElem] at h
      simp [load_url_serial, requests_get, h, outcomeLine]
  | timeoutExpired =>
      refine Or.inr ⟨.timeoutExpired, ?_⟩
      simp only [List.get_eq_getElem] at h
      simp [load_url_serial, requests_get, h, outcomeLine]

/-- C5 witness: the first line of a one-URL batch over a failing host. -/
theorem c5_witness :
    (main_serial_output envNoHost ["http://a/"]).length
      = (["http://a/"] : List String).length ∧
    ∃ hj : 0 < (main_serial_output envNoHost ["http://a/"]).length,
      (∃ n : Nat, (main_serial_output envNoHost ["http://a/"]).get ⟨0, hj⟩
          = (["http://a/"] : List String).get ⟨0, by decide⟩
            ++ " page is " ++ toString n ++ " bytes") ∨
      (∃ e, (main_serial_output envNoHost ["http://a/"]).get ⟨0, hj⟩
          = (["http://a/"] : List String).get ⟨0, by decide⟩
            ++ " generated an exception: " ++ errDesc e) :=
  c5_one_line_two_shapes envNoHost ["http://a/"] 0 (by decide)

/-- C6: a Target whose hostname does not resolve yields, in every variant,
a failure Outcome whose cause is classified as NetworkFailure — not a
success Outcome, and not an uncaught error. -/
theorem c6_name_resolution_network_failure (env : Env) (u : String)
    (h : env u = NetEvent.nameResolutionError) :
    load_url_serial env u = Outcome.failure u FetchError.nameResolution ∧
    handle_future env u = Outcome.failure u FetchError.nameResolution ∧
    load_url_async env u = Outcome.failure u FetchError.nameResolution ∧
    failureKind FetchError.nameResolution = FailureKind.NetworkFailure ∧
    (load_url_serial env u).isSuccess = false := by
  refine ⟨?_, ?_, ?_, rfl, ?_⟩ <;>
    simp [load_url_serial, handle_future, load_url_parallel, load_url_async,
      requests_get, urlopen, aiohttp_read, h, Outcome.isSuccess]

/-- C6 witness: the notebook's non-existent host. -/
theorem c6_witness :
    load_url_serial envNoHost "http://nonexistent-subdomain.python.org/"
      = Outcome.failure "http://nonexistent-subdomain.python.org/"
          FetchError.nameResolution ∧
    handle_future envNoHost "http://nonexistent-subdomain.python.org/"
      = Outcome.failure "http://nonexistent-subdomain.python.org/"
          FetchError.nameResolution ∧
    load_url_async envNoHost "http://nonexistent-subdomain.python.org/"
      = Outcome.failure "http://nonexistent-subdomain.python.org/"
          FetchError.nameResolution ∧
    failureKind FetchError.nameResolution = FailureKind.NetworkFailure ∧
    (load_url_serial envNoHost
        "http://nonexistent-subdomain.python.org/").isSuccess = false :=
  c6_name_resolution_network_failure envNoHost
    "http://nonexistent-subdomain.python.org/" rfl

/-- C7: outcomes are delivered in completion order, and the aggregator
never waits: at every state the `as_completed` loop reaches, the number of
emitted outcomes equals the number of completed units (so the first
outcome is out before the rest complete), and each step appends, in that
same step, exactly the outcome of the unit that just completed. -/
theorem c7_completion_order (env : Env) (urls : List String)
    {s t : PoolState} (hrun : PoolRun env ⟨urls, []⟩ s)
    (hstep : PoolStep env s t) :
    s.emitted.length + s.pending.length = urls.length ∧
    ∃ u, u ∈ s.pending ∧ t.emitted = s.emitted ++ [handle_future env u] ∧
      List.Perm s.pending (u :: t.pending) := by
  constructor
  · simpa using poolRun_length hrun
  · exact poolStep_shape hstep

/-- C7 witness: a two-URL batch whose second URL completes first — its
outcome is emitted immediately, before the first URL finishes. -/
theorem c7_witness :
    (([] : List Outcome)).length
        + (["http://a/", "http://b/"] : List String).length
      = (["http://a/", "http://b/"] : List String).length ∧
    ∃ u, u ∈ ["http://a/", "http://b/"] ∧
      [handle_future envPage "http://b/"]
        = ([] : List Outcome) ++ [handle_future envPage u] ∧
      List.Perm ["http://a/", "http://b/"] (u :: ["http://a/"]) :=
  c7_completion_order envPage ["http://a/", "http://b/"] (PoolRun.refl _)
    (PoolStep.complete ["http://a/"] [] "http://b/" [])

/-- C8: a batch run terminates, and it finishes only once every unit has
reported: the `as_completed` loop is finished (no step possible) exactly
when no future is pending; when finished, every submitted URL has exactly
one emitted outcome; and from every reachable state a finished state is
reachable. -/
theorem c8_finishes_after_all_report (env : Env) (urls : List String)
    {s : PoolState} (hrun : PoolRun env ⟨urls, []⟩ s) :
    ((¬ ∃ t, PoolStep env s t) ↔ s.pending = []) ∧
    (s.pending = [] → List.Perm (s.emitted.map Outcome.url) urls) ∧
    (s.pending = [] → s.emitted.length = urls.length) ∧
    ∃ f : PoolState, PoolRun env s f ∧ f.pending = [] := by
  have hperm : s.pending = [] →
      List.Perm (s.emitted.map Outcome.url) urls := by
    intro hdone
    have h := poolRun_perm hrun
    rw [hdone] at h
    simpa using h
  refine ⟨⟨?_, ?_⟩, hperm, ?_, ?_⟩
  · intro hno
    cases hp : s.pending with
    | nil => rfl
    | cons u rest =>
        exfalso
        apply hno
        obtain ⟨pending, emitted⟩ := s
        simp only at hp
        subst hp
        exact ⟨_, PoolStep.complete [] rest u emitted⟩
  · intro hdone hex
    obtain ⟨t, hstep⟩ := hex
    exact no_step_of_done hstep hdone
  · intro hdone
    have := (hperm hdone).length_eq
    simpa using this
  · obtain ⟨pending, emitted⟩ := s
    exact pool_terminates env pending emitted

/-- C8 witness: a one-URL batch at its initial state. -/
theorem c8_witness :
    ((¬ ∃ t, PoolStep envPage (PoolState.mk ["http://a/"] []) t)
        ↔ (["http://a/"] : List String) = []) ∧
    ((["http://a/"] : List String) = [] →
      List.Perm (([] : List Outcome).map Outcome.url) ["http://a/"]) ∧
    ((["http://a/"] : List String) = [] →
      ([] : List Outcome).length = (["http://a/"] : List String).length) ∧
    (∃ f : PoolState,
      PoolRun envPage (PoolState.mk ["http://a/"] []) f ∧ f.pending = []) :=
  c8_finishes_after_all_report envPage ["http://a/"] (PoolRun.refl _)

/-- C9: running the same batch twice against endpoints that behave the
same way each run (same per-target event kind and status, though bodies —
and hence byte counts — may differ) yields the same success/failure
classification per Target in each variant. -/
theorem c9_idempotent_classification (env1 env2 : Env) (urls : List String)
    (h : ∀ u ∈ urls, sameShape (env1 u) (env2 u) = true) :
    (main_serial env1 urls).map Outcome.isSuccess
      = (main_serial env2 urls).map Outcome.isSuccess ∧
    (urls.map (handle_future env1)).map Outcome.isSuccess
      = (urls.map (handle_future env2)).map Outcome.isSuccess ∧
    (main_async env1 urls).map Outcome.isSuccess
      = (main_async env2 urls).map Outcome.isSuccess := by
  unfold main_serial main_async
  refine ⟨map_isSuccess_congr _ _ _ ?_, map_isSuccess_congr _ _ _ ?_,
    map_isSuccess_congr _ _ _ ?_⟩
  · intro u hu
    rw [load_url_serial_isSuccess, load_url_serial_isSuccess]
    exact sameShape_serialClass (h u hu)
  · intro u hu
    rw [handle_future_isSuccess, handle_future_isSuccess]
    exact sameShape_parallelClass (h u hu)
  · intro u hu
    rw [load_url_async_isSuccess, load_url_async_isSuccess]
    exact sameShape_serialClass (h u hu)

/-- C9 witness: two runs returning status 200 with different (dynamic)
bodies — the classification is identical even though byte counts differ. -/
theorem c9_witness :
    (main_serial envPage ["http://a/"]).map Outcome.isSuccess
      = (main_serial (fun _ => NetEvent.response 200 [1])
          ["http://a/"]).map Outcome.isSuccess ∧
    ((["http://a/"] : List String).map
        (handle_future envPage)).map Outcome.isSuccess
      = ((["http://a/"] : List String).map
          (handle_future (fun _ => NetEvent.response 200 [1]))).map
            Outcome.isSuccess ∧
    (main_async envPage ["http://a/"]).map Outcome.isSuccess
      = (main_async (fun _ => NetEvent.response 200 [1])
          ["http://a/"]).map Outcome.isSuccess :=
  c9_idempotent_classification envPage (fun _ => NetEvent.response 200 [1])
    ["http://a/"] (by decide)

/-- C10: in the serial variant, a fetch completing within the timeout with
a non-2xx HTTP status is always reported as a success Outcome whose count
is the length of the error-page body, never as a failure Outcome —
`requests.get` does not raise on HTTP status codes. -/
theorem c10_serial_non2xx_success (env : Env) (u : String) (st : Nat)
    (body : List Nat) (hresp : env u = NetEvent.response st body)
    (_hnon : is2xx st = false) :
    load_url_serial env u = Outcome.success u body.length ∧
    (load_url_serial env u).isSuccess = true ∧
    ∀ v e, load_url_serial env u ≠ Outcome.failure v e := by
  have h1 : load_url_serial env u = Outcome.success u body.length := by
    simp [load_url_serial, requests_get, hresp]
  refine ⟨h1, by rw [h1]; rfl, ?_⟩
  intro v e
  rw [h1]
  simp

/-- C10 witness: a 403 response with a two-byte error page. -/
theorem c10_witness :
    load_url_serial envHttp403 "http://europe.wsj.com/"
      = Outcome.success "http://europe.wsj.com/" 2 ∧
    (load_url_serial envHttp403 "http://europe.wsj.com/").isSuccess = true ∧
    ∀ v e, load_url_serial envHttp403 "http://europe.wsj.com/"
      ≠ Outcome.failure v e :=
  c10_serial_non2xx_success envHttp403 "http://europe.wsj.com/" 403 [1, 2]
    rfl (by decide)

end ParallelAsync
